import Mathlib

/-!
# Verification of the notion-md conversion script

Shallow embedding of `src/script.py`, a converter from a remote content
store (Notion) to Markdown.  Python dictionaries coming from the remote
API are modelled as structures whose `Option` fields record presence of
the corresponding JSON keys; `dict.get(k, default)` becomes `Option.getD`.
Network byte fetches (`requests.get(url).content`) are modelled as an
explicit capability `fetch : String → Except String (List Nat)` carried in
the configuration record, so that a failing download is an `Except.error`
exactly where Python raises.  File writes are modelled as returned
`(path, data)` pairs.

Ordered block sequences are represented by the inductive `BlockList`
(isomorphic to `List Block`, mutual with `Block`) so that the recursive
renderer is structurally recursive and computable by the kernel.  String
splitting on a single-character separator is implemented over `List Char`
with Python's `str.split(sep)` semantics.
-/

namespace NotionMd

/-- The annotation set of one rich-text run (`text_data["annotations"]`).
`annotations.get(flag)` on a missing key is falsy in Python, hence the
`false` / `""` defaults. -/
structure Annotations where
  bold : Bool := false
  italic : Bool := false
  strikethrough : Bool := false
  underline : Bool := false
  code : Bool := false
  color : String := ""
deriving Repr, DecidableEq

/-- One rich-text run (`text_data`): `plain_text`, `annotations`, optional
`href`. -/
structure RichText where
  plain_text : String := ""
  annotations : Annotations := {}
  href : Option String := none
deriving Repr, DecidableEq

/-- The type-specific payload of a block (`block["content"]`, the value
stored under the block's own type key).  `file`/`external` hold the nested
`url` string when the corresponding hosting object is present
(`content["file"]["url"]` resp. `content["external"]["url"]`). -/
structure Content where
  rich_text : List RichText := []
  language : String := ""
  checked : Bool := false
  file : Option String := none
  external : Option String := none
deriving Repr, DecidableEq

mutual

/-- A content block as assembled by `query_blocks`: `id`, `type`,
`content`, `children`. -/
inductive Block where
  | mk (id : String) (type : String) (content : Content) (children : BlockList)

/-- An ordered sequence of sibling blocks. -/
inductive BlockList where
  | nil
  | cons (b : Block) (rest : BlockList)

end

def Block.id : Block → String
  | .mk i _ _ _ => i

def Block.type : Block → String
  | .mk _ t _ _ => t

def Block.content : Block → Content
  | .mk _ _ c _ => c

def Block.children : Block → BlockList
  | .mk _ _ _ ch => ch

/-- Python truthiness of the `children` list. -/
def BlockList.isEmpty : BlockList → Bool
  | .nil => true
  | .cons _ _ => false

/-- Convenience conversion for writing concrete sibling lists. -/
def blist : List Block → BlockList
  | [] => .nil
  | b :: rest => .cons b (blist rest)

/-- The configuration surface the script reads (`args.static`, `args.url`,
`args.content`) together with the byte-fetch capability. -/
structure Cfg where
  static : String
  url : String
  content : String
  fetch : String → Except String (List Nat)

/-- `startsWithSeq pat l` holds when `pat` is an initial segment of `l`. -/
def startsWithSeq : List Char → List Char → Bool
  | [], _ => true
  | _ :: _, [] => false
  | p :: ps, c :: cs => p == c && startsWithSeq ps cs

/-- Occurrence test on character lists, used for Python's `pat in s`. -/
def containsSeq (pat : List Char) : List Char → Bool
  | [] => pat.isEmpty
  | c :: rest => startsWithSeq pat (c :: rest) || containsSeq pat rest

/-- Python's `pat in s` substring test. -/
def strIn (pat s : String) : Bool :=
  containsSeq pat.data s.data

/-- Python's `s.split(sep)` for a single-character separator: the list of
(possibly empty) pieces between occurrences of `sep`; never empty. -/
def splitChar (sep : Char) : List Char → List (List Char)
  | [] => [[]]
  | c :: rest =>
    let r := splitChar sep rest
    if c == sep then [] :: r
    else
      match r with
      | [] => [[c]]
      | piece :: more => (c :: piece) :: more

/-- `url.split('/')[-1].split('?')[0].split('.')[-1]` from `get_image`:
the extension of the URL's final slash-segment, query suffix stripped.
`splitChar` never returns `[]`, so the defaults are never used. -/
def urlExt (url : String) : String :=
  .mk ((splitChar '.' ((splitChar '?'
    ((splitChar '/' url.data).getLastD [])).headD [])).getLastD [])

/-- `os.path.join` on POSIX for the two-argument case used by the script. -/
def osJoin (a b : String) : String :=
  if b.data.headD ' ' == '/' then b
  else if a.data.isEmpty || a.data.getLastD ' ' == '/' then a ++ b
  else a ++ "/" ++ b

/-- `get_image(block)`: resolve `content["file"]["url"]`; on an empty URL
return an empty fragment (and write nothing); otherwise download, write
`{args.static}/{block_id}.{ext}` and return the centred Markdown image
reference pointing at `os.path.join(args.url, filename)`.  The second
component lists the file writes performed. -/
def get_image (cfg : Cfg) (b : Block) : Except String (String × List (String × List Nat)) :=
  let url := (b.content.file).getD ""
  if url = "" then .ok ("", [])
  else
    let filename := b.id ++ "." ++ urlExt url
    match cfg.fetch url with
    | .error e => .error e
    | .ok image_data =>
        .ok ("![](" ++ osJoin cfg.url filename ++ "#center)",
             [(cfg.static ++ "/" ++ filename, image_data)])

/-- `parse_annotations(annotations, text)`: wrap `text` in Markdown/HTML
markers, innermost first: code, bold, italic, strikethrough, underline and
finally `<mark>` when `"background" in annotations.get("color", "")`. -/
def parse_annotations (a : Annotations) (text : String) : String :=
  let text := if a.code then "`" ++ text ++ "`" else text
  let text := if a.bold then "**" ++ text ++ "**" else text
  let text := if a.italic then "*" ++ text ++ "*" else text
  let text := if a.strikethrough then "~~" ++ text ++ "~~" else text
  let text := if a.underline then "<u>" ++ text ++ "</u>" else text
  let text := if strIn "background" a.color then "<mark>" ++ text ++ "</mark>" else text
  text

/-- One iteration of the rich-text loop in `parse_block_type`: annotate the
run's plain text, then wrap it as a link when `text_data.get("href")` is
truthy (present and non-empty). -/
def composeRun (r : RichText) : String :=
  let text := parse_annotations r.annotations r.plain_text
  match r.href with
  | some h => if h = "" then text else "[" ++ text ++ "](" ++ h ++ ")"
  | none => text

/-- The `result` accumulated over `block["content"]["rich_text"]`. -/
def composeRichTexts (rs : List RichText) : String :=
  rs.foldl (fun acc r => acc ++ composeRun r) ""

/-- `"\t" * depth`. -/
def tabs : Nat → String
  | 0 => ""
  | d + 1 => "\t" ++ tabs d

/-- The numbered-list counter update performed by the `render_page` loop
before rendering each sibling. -/
def nextCounter (t : String) (n : Nat) : Nat :=
  if t == "numbered_list_item" then n + 1 else 0

/-- `parse_block_type(block, numbered_list_index, depth)`: dividers and
images return early (no indentation); every other type composes its rich
text and, only when the composition is non-empty, applies the
type-specific template and prefixes `"\t" * depth`. -/
def parse_block_type (cfg : Cfg) (b : Block) (numbered_list_index depth : Nat) :
    Except String String :=
  if b.type == "divider" then .ok "---"
  else if b.type == "image" then
    match get_image cfg b with
    | .error e => .error e
    | .ok (md, _) => .ok md
  else
    let result := composeRichTexts b.content.rich_text
    if result = "" then .ok ""
    else
      let result :=
        if b.type == "heading_1" then "# " ++ result
        else if b.type == "heading_2" then "## " ++ result
        else if b.type == "heading_3" then "### " ++ result
        else if b.type == "code" then
          "```" ++ b.content.language ++ "\n" ++ result ++ "\n```"
        else if b.type == "bulleted_list_item" then "- " ++ result
        else if b.type == "numbered_list_item" then
          toString numbered_list_index ++ ". " ++ result
        else if b.type == "to_do" then
          if b.content.checked then "- [x] " ++ result else "- [ ] " ++ result
        else if b.type == "quote" then "> " ++ result
        else result
      .ok (tabs depth ++ result)

/-- The loop body of `render_page(blocks, depth)` with the local
`numbered_list_index` made explicit: update the counter, render the block,
prepend `"\n\n"` to a non-empty fragment, recurse into non-empty children
at `depth + 1` (with a fresh counter), and continue with the siblings. -/
def renderAux (cfg : Cfg) : BlockList → Nat → Nat → Except String String
  | .nil, _, _ => .ok ""
  | .cons (.mk i t c ch) rest, n, d =>
    let n' := nextCounter t n
    match parse_block_type cfg (.mk i t c ch) n' d with
    | .error e => .error e
    | .ok text =>
      match (if ch.isEmpty then Except.ok "" else renderAux cfg ch 0 (d + 1)) with
      | .error e => .error e
      | .ok childPart =>
        match renderAux cfg rest n' d with
        | .error e => .error e
        | .ok restPart =>
            .ok ((if text = "" then "" else "\n\n" ++ text) ++ childPart ++ restPart)

/-- `render_page(blocks, depth)`: the sibling loop started with
`numbered_list_index = 0`. -/
def render_page (cfg : Cfg) (blocks : BlockList) (depth : Nat) : Except String String :=
  renderAux cfg blocks 0 depth

/-!
## Pagination

The remote's paged presentation is modelled as the list of responses, in
cursor order: fetching with no cursor yields the head, `has_more` is true
exactly when further responses remain (the recursion's list suffix plays
the role of the opaque `next_cursor`), and an empty list stands for a
remote whose first response carries no results.  The per-item processing
(`query_blocks` builds a block record, recursively fetching children;
`query_db` computes a frontmatter string) is abstracted as `f`.
-/

/-- The accumulator recursion of `query_blocks(page_id, start_cursor,
blocks)`: append the current response's transformed results to the
accumulator, then recurse on the next cursor while `has_more`. -/
def collectPages {α β : Type} (f : α → β) : List (List α) → List β → List β
  | [], acc => acc
  | p :: rest, acc =>
    let acc := acc ++ p.map f
    match rest with
    | [] => acc
    | _ :: _ => collectPages f rest acc

/-- `result[key] = value` on a Python `dict`, modelled as an
insertion-ordered association list: an existing key keeps its position and
gets the new value, a fresh key is appended. -/
def dictInsert (m : List (String × String)) (k v : String) : List (String × String) :=
  if m.any (fun p => p.1 == k) then
    m.map (fun p => if p.1 == k then (k, v) else p)
  else m ++ [(k, v)]

/-- One response's `for item in response["results"]` loop in `query_db`. -/
def insertItems (m : List (String × String)) (items : List (String × String)) :
    List (String × String) :=
  items.foldl (fun m kv => dictInsert m kv.1 kv.2) m

/-- The `while response["has_more"]` loop of `query_db`. -/
def dbLoop {α : Type} (f : α → String × String) (m : List (String × String)) :
    List (List α) → List (String × String)
  | [] => m
  | p :: rest => dbLoop f (insertItems m (p.map f)) rest

/-- `query_db(db_id)`: one unconditional fetch, then the `while` loop. -/
def collectDbPages {α : Type} (f : α → String × String) :
    List (List α) → List (String × String)
  | [] => []
  | p :: rest => dbLoop f (insertItems [] (p.map f)) rest

/-!
## Frontmatter
-/

/-- A JSON value that may be `null`: a key can be present yet hold
`null`, which a `dict.get` default does not replace. -/
inductive Nullable (α : Type) where
  | null
  | val (a : α)
deriving Repr, DecidableEq

/-- The fixed-schema record serialized by `parse_frontmatter`
(`json.dumps` of the field dictionary is its external serialization).
`url` is nullable: `properties["URL"]["url"]` can be JSON `null`, which
the `.get` chain passes through as `None` (serialized as `null`) rather
than replacing it with `""`. -/
structure Frontmatter where
  title : String
  date : String
  tags : List String
  categories : List String
  url : Nullable String
  published : Bool
deriving Repr, DecidableEq

/-- A page's property mapping, to the depth `parse_frontmatter` inspects.
`title`: outer `Option` is presence of the `"Title"` property, inner is
presence of its `"title"` key, and each run's `Option String` is presence
of `"plain_text"`.  `date`: presence of the `"Date"` property, presence
of its `"date"` key, then the key's value — JSON `null` (the remote's
unset date) or an object whose `Option String` is presence of `"start"`.
`url`: presence of the `"URL"` property, presence of its `"url"` key,
then the key's value — JSON `null` (the remote's unset URL) or a string.
`tags`/`categories` hold the `"name"` fields of the `multi_select`
items. -/
structure Properties where
  title : Option (Option (List (Option String))) := none
  date : Option (Option (Nullable (Option String))) := none
  tags : Option (List String) := none
  categories : Option (List String) := none
  url : Option (Option (Nullable String)) := none
  published : Option Bool := none

/-- `parse_frontmatter(properties)`.  The defaults mirror the Python
`.get` chains: a missing `"Title"` property or `"title"` key defaults to
`[{}]`, whose single run has no `plain_text`; indexing `[0]` on a present
but empty run list raises `IndexError`.  A `"date"` key present with
JSON `null` makes `.get("date", {})` return `None`, so the subsequent
`.get("start", "")` raises `AttributeError`; the dict literal evaluates
its entries in order, so the title's `IndexError` precedes it.  A
`"url"` key present with `null` yields `None` (not `""`) in the
record. -/
def parse_frontmatter (p : Properties) : Except String Frontmatter :=
  let runs := (p.title.getD none).getD [none]
  match runs with
  | [] => .error "IndexError"
  | r :: _ =>
    match (p.date.getD none).getD (.val none) with
    | .null => .error "AttributeError"
    | .val start? =>
        .ok { title := r.getD "Untitled"
              date := start?.getD ""
              tags := p.tags.getD []
              categories := p.categories.getD []
              url := (p.url.getD none).getD (.val "")
              published := p.published.getD false }

/-!
## Per-page worker
-/

/-- `multi_thread(page_items)`, given the block tree that `query_blocks`
returned for the page: render first, and only on success open and write
`{args.content}/{page_id}.md` with the frontmatter followed by the body.
The write is returned as a `(path, contents)` pair; a rendering failure
(e.g. a failed image download) propagates — the function body installs no
handler — and no file is written. -/
def multi_thread (cfg : Cfg) (pageId frontmatter : String) (blocks : BlockList) :
    Except String (String × String) :=
  match render_page cfg blocks 0 with
  | .error e => .error e
  | .ok content => .ok (cfg.content ++ "/" ++ pageId ++ ".md", frontmatter ++ content)

/-- `Pool.map(multi_thread, pages.items())` restricted to one task chunk:
`multiprocessing` applies `multi_thread` to the chunk's pages in order,
and an uncaught exception abandons the chunk's remaining pages and
propagates to the caller.  Returns the files written by the pages
completed before any failure, together with the propagated error. -/
def runPages (cfg : Cfg) : List (String × String × BlockList) →
    List (String × String) × Option String
  | [] => ([], none)
  | (pid, fm, blocks) :: rest =>
    match multi_thread cfg pid fm blocks with
    | .error e => ([], some e)
    | .ok w =>
      let (ws, err) := runPages cfg rest
      (w :: ws, err)

/-!
## Spec-side description of annotation composition

`spec_layers`/`spec_wrap` transcribe §4.3 of the specification: the
wrappers that apply to a run, listed outward from the innermost — code
span, bold, italic, strikethrough, underline, highlight — each folded
around the text in that order.
-/

/-- The ordered wrapper list the specification prescribes for a run. -/
def spec_layers (a : Annotations) : List (String × String) :=
  (if a.code then [("`", "`")] else []) ++
  (if a.bold then [("**", "**")] else []) ++
  (if a.italic then [("*", "*")] else []) ++
  (if a.strikethrough then [("~~", "~~")] else []) ++
  (if a.underline then [("<u>", "</u>")] else []) ++
  (if strIn "background" a.color then [("<mark>", "</mark>")] else [])

/-- Apply wrappers around `text`, innermost first. -/
def spec_wrap (text : String) (layers : List (String × String)) : String :=
  layers.foldl (fun t pr => pr.1 ++ t ++ pr.2) text

/-!
## Concrete fixtures
-/

/-- A configuration whose byte fetch always succeeds with an empty body. -/
def cfg0 : Cfg :=
  { static := "static", url := "https://site/img", content := "content",
    fetch := fun _ => .ok [] }

/-- A configuration whose byte fetch always fails, as when the asset
download raises. -/
def cfgFail : Cfg :=
  { static := "static", url := "https://site/img", content := "content",
    fetch := fun _ => .error "AssetDownloadError" }

/-- A run of plain text with no annotations and no link. -/
def plainRun (s : String) : RichText := { plain_text := s }

/-- A childless block of the given type whose rich text is one plain run. -/
def textBlock (ty s : String) : Block := .mk "b0" ty { rich_text := [plainRun s] } .nil

def dividerBlock : Block := .mk "d0" "divider" {} .nil

/-- An image block with an internally-hosted (`file`) URL. -/
def fileImageBlock : Block :=
  .mk "blk1" "image" { file := some "https://h/img/photo.png?tok=1" } .nil

/-- An image block carrying only an externally-hosted (`external`) URL. -/
def extImageBlock : Block :=
  .mk "blk2" "image" { external := some "https://cdn.example.com/pic.png" } .nil

/-!
## Claims
-/

/-- C1: rendering the sibling list `[heading_1 "Title", unrecognized block
"Hello", divider, numbered_item "a", numbered_item "b"]` at depth 0
produces exactly `"\n\n# Title\n\nHello\n\n---\n\n1. a\n\n2. b"`: each
non-empty fragment is prepended with two newlines and the fragments are
concatenated in sibling order. -/
theorem c1_end_to_end_render : ∀ cfg : Cfg,
    render_page cfg (blist [textBlock "heading_1" "Title", textBlock "callout" "Hello",
      dividerBlock, textBlock "numbered_list_item" "a", textBlock "numbered_list_item" "b"]) 0 =
    .ok "\n\n# Title\n\nHello\n\n---\n\n1. a\n\n2. b" :=
  fun _ => rfl

/-- C2 counterexample: a divider renders to the same fragment `"---"` at
depth 1 as at depth 0 — the per-level indentation prefix is not applied to
divider blocks, contradicting the claim that it is applied for every
block type. -/
theorem c2_counterexample :
    parse_block_type cfg0 dividerBlock 0 1 = .ok "---" ∧
    parse_block_type cfg0 dividerBlock 0 0 = .ok "---" :=
  ⟨rfl, rfl⟩

/-- C2 (amended): for every block whose type is neither `divider` nor
`image` and whose composed rich text is non-empty, the fragment at depth
`d + 1` carries exactly one more indentation unit (one tab) than at depth
`d`, for all `d ≥ 0`; divider and image fragments carry no indentation at
any depth (see the counterexample). -/
theorem c2_indentation_per_level : ∀ (cfg : Cfg) (i t : String) (c : Content)
    (ch : BlockList) (n d : Nat),
    t ≠ "divider" → t ≠ "image" → composeRichTexts c.rich_text ≠ "" →
    parse_block_type cfg (.mk i t c ch) n (d + 1) =
      (parse_block_type cfg (.mk i t c ch) n d).map (fun s => "\t" ++ s) := by
  intro cfg i t c ch n d h1 h2 h3
  simp [parse_block_type, Block.type, Block.content, h1, h2, h3, tabs,
    Except.map, String.append_assoc]

/-- C2 witness: a depth-1 heading carries one tab more than at depth 0. -/
theorem c2_witness :
    parse_block_type cfg0 (.mk "b0" "heading_1" { rich_text := [plainRun "Title"] } .nil) 0 1 =
      (parse_block_type cfg0 (.mk "b0" "heading_1" { rich_text := [plainRun "Title"] } .nil) 0 0).map
        (fun s => "\t" ++ s) :=
  c2_indentation_per_level cfg0 "b0" "heading_1" { rich_text := [plainRun "Title"] } .nil 0 0
    (by decide) (by decide) (by decide)

/-- C3: while rendering a sibling list the numbered-list counter resets to
zero the instant any non-numbered sibling is encountered — the rendering
of `b :: rest` is independent of the incoming counter whenever `b` is not
a numbered item (even when `b`'s own fragment is empty) — and the
sequence `[numbered "a", numbered "b", bulleted "c", numbered "d"]`
renders indices 1, 2, (reset), 1. -/
theorem c3_numbered_counter :
    (∀ (cfg : Cfg) (i t : String) (c : Content) (ch rest : BlockList) (n m d : Nat),
      t ≠ "numbered_list_item" →
      renderAux cfg (.cons (.mk i t c ch) rest) n d =
        renderAux cfg (.cons (.mk i t c ch) rest) m d) ∧
    (∀ cfg : Cfg,
      render_page cfg (blist [textBlock "numbered_list_item" "a",
        textBlock "numbered_list_item" "b", textBlock "bulleted_list_item" "c",
        textBlock "numbered_list_item" "d"]) 0 =
      .ok "\n\n1. a\n\n2. b\n\n- c\n\n1. d") := by
  constructor
  · intro cfg i t c ch rest n m d h
    have hb : (t == "numbered_list_item") = false := by simp [h]
    simp only [renderAux, nextCounter, hb, Bool.false_eq_true, if_false]
  · intro cfg
    rfl

/-- C3 witness: a bulleted block resets the counter regardless of the
incoming counter value — rendering with incoming counter 4 equals
rendering with 0, and the numbered item after it gets index 1. -/
theorem c3_witness :
    renderAux cfg0 (.cons (.mk "b0" "bulleted_list_item" { rich_text := [plainRun "c"] } .nil)
      (blist [textBlock "numbered_list_item" "d"])) 4 0 =
    renderAux cfg0 (.cons (.mk "b0" "bulleted_list_item" { rich_text := [plainRun "c"] } .nil)
      (blist [textBlock "numbered_list_item" "d"])) 0 0 :=
  c3_numbered_counter.1 cfg0 "b0" "bulleted_list_item" { rich_text := [plainRun "c"] } .nil
    (blist [textBlock "numbered_list_item" "d"]) 4 0 0 (by decide)

/-- C10: a recognized non-divider, non-image block whose rich-text runs
compose to the empty string renders the empty fragment — no type marker
and no indentation — while its children are still rendered at `d + 1` and
the block still performs the numbered-list counter update `nextCounter`. -/
theorem c10_empty_text_block : ∀ (cfg : Cfg) (i t : String) (c : Content)
    (ch rest : BlockList) (n m d : Nat) (s r : String),
    t ≠ "divider" → t ≠ "image" → composeRichTexts c.rich_text = "" →
    parse_block_type cfg (.mk i t c ch) n d = .ok "" ∧
    (renderAux cfg ch 0 (d + 1) = .ok s →
      renderAux cfg rest (nextCounter t m) d = .ok r →
      renderAux cfg (.cons (.mk i t c ch) rest) m d = .ok (s ++ r)) := by
  intro cfg i t c ch rest n m d s r h1 h2 h3
  have hpb : ∀ k, parse_block_type cfg (.mk i t c ch) k d = .ok "" := by
    intro k
    simp [parse_block_type, Block.type, Block.content, h1, h2, h3]
  refine ⟨hpb n, fun hch hrest => ?_⟩
  cases ch with
  | nil =>
    have hs : s = "" := by
      have : Except.ok (ε := String) "" = .ok s := hch
      simpa using this.symm
    subst hs
    simp only [renderAux, BlockList.isEmpty]
    rw [hpb, hrest]
    rfl
  | cons b tl =>
    simp only [renderAux, BlockList.isEmpty, Bool.false_eq_true, if_false]
    rw [hpb, hch, hrest]
    rfl

/-- C10 witness: an empty callout block renders nothing of its own but its
divider child is still rendered at depth 1. -/
theorem c10_witness :
    renderAux cfg0 (.cons (.mk "x" "callout" {} (blist [dividerBlock])) .nil) 0 0 =
      .ok ("\n\n---" ++ "") :=
  (c10_empty_text_block cfg0 "x" "callout" {} (blist [dividerBlock]) .nil 0 0 0 "\n\n---" ""
    (by decide) (by decide) rfl).2 rfl rfl

/-- C4: annotation wrappers are applied in the fixed nesting order
(innermost first) code, bold, italic, strikethrough, underline, highlight
when the color denotes a background variant — `parse_annotations` equals
the specification's ordered fold `spec_wrap`/`spec_layers`; after
annotation wrapping a present (non-empty) `href` wraps the whole result as
a Markdown link; and a run with both bold and code renders as the
code-wrapped text wrapped in bold markers. -/
theorem c4_annotation_order :
    (∀ (a : Annotations) (text : String),
      parse_annotations a text = spec_wrap text (spec_layers a)) ∧
    (∀ (a : Annotations) (t h : String), h ≠ "" →
      composeRun { plain_text := t, annotations := a, href := some h } =
        "[" ++ parse_annotations a t ++ "](" ++ h ++ ")") ∧
    (∀ t : String,
      parse_annotations { bold := true, code := true } t = "**" ++ ("`" ++ t ++ "`") ++ "**") := by
  refine ⟨?_, ?_, ?_⟩
  · intro a text
    obtain ⟨b, i, st, u, cd, col⟩ := a
    cases b <;> cases i <;> cases st <;> cases u <;> cases cd <;>
      cases hm : strIn "background" col <;>
      simp [parse_annotations, spec_layers, spec_wrap, hm]
  · intro a t h hh
    simp [composeRun, hh]
  · intro t
    rfl

/-- C4 witness: a linked bold run is annotation-wrapped and then wrapped
as a Markdown link to its href. -/
theorem c4_witness :
    composeRun { plain_text := "x", annotations := { bold := true }, href := some "https://e" } =
      "[" ++ parse_annotations { bold := true } "x" ++ "](" ++ "https://e" ++ ")" :=
  c4_annotation_order.2.1 { bold := true } "x" "https://e" (by decide)

/-- C5: for every image block with a non-empty `file` URL whose download
succeeds, `get_image` derives the filename `{blockId}.{ext}` with the
extension taken from the URL's final path segment after the query suffix
is stripped, writes the downloaded bytes under that filename in the
static directory, and returns a Markdown image reference whose path is
the public URL prefix joined with the same filename, with the `#center`
marker appended. -/
theorem c5_asset_roundtrip : ∀ (cfg : Cfg) (b : Block) (bytes : List Nat),
    (b.content.file).getD "" ≠ "" →
    cfg.fetch ((b.content.file).getD "") = .ok bytes →
    get_image cfg b = .ok
      ("![](" ++ osJoin cfg.url (b.id ++ "." ++ urlExt ((b.content.file).getD "")) ++ "#center)",
       [(cfg.static ++ "/" ++ (b.id ++ "." ++ urlExt ((b.content.file).getD "")), bytes)]) := by
  intro cfg b bytes h hf
  simp [get_image, h, hf]

/-- C5 witness: the block `blk1` with file URL
`https://h/img/photo.png?tok=1` materializes as `blk1.png` and the
Markdown reference points at the joined public URL. -/
theorem c5_witness :
    get_image cfg0 fileImageBlock = .ok
      ("![](https://site/img/blk1.png#center)", [("static/blk1.png", [])]) :=
  c5_asset_roundtrip cfg0 fileImageBlock [] (by decide) rfl

/-- C6 counterexample: an image block whose content carries an
externally-hosted URL but no internally-hosted one yields the empty
fragment — the external reference is never consulted, contradicting the
claim that the URL is resolved from either reference with only the
both-absent case empty. -/
theorem c6_counterexample :
    extImageBlock.content.external = some "https://cdn.example.com/pic.png" ∧
    get_image cfg0 extImageBlock = .ok ("", []) :=
  ⟨rfl, rfl⟩

/-- C6 (amended): `get_image` resolves the source URL only from the
internally-hosted `file` reference; whenever that reference is absent or
empty it returns an empty fragment and writes nothing, regardless of any
externally-hosted reference. -/
theorem c6_internal_reference_only : ∀ (cfg : Cfg) (b : Block),
    (b.content.file).getD "" = "" → get_image cfg b = .ok ("", []) := by
  intro cfg b h
  simp [get_image, h]

/-- C6 witness: the external-only image block produces the empty
fragment. -/
theorem c6_witness : get_image cfg0 extImageBlock = .ok ("", []) :=
  c6_internal_reference_only cfg0 extImageBlock rfl

/-- The accumulator recursion collects every page's items, in order,
after the initial accumulator. -/
theorem collectPages_append {α β : Type} (f : α → β) :
    ∀ (pages : List (List α)) (acc : List β),
    collectPages f pages acc = acc ++ (pages.flatten).map f := by
  intro pages
  induction pages with
  | nil => intro acc; simp [collectPages]
  | cons p rest ih =>
    intro acc
    cases rest with
    | nil => simp [collectPages]
    | cons q rs =>
      have hstep : collectPages f (p :: q :: rs) acc =
          collectPages f (q :: rs) (acc ++ p.map f) := rfl
      rw [hstep, ih]
      simp [List.append_assoc]

/-- Inserting a fresh key into the dictionary appends the pair. -/
theorem dictInsert_not_mem (m : List (String × String)) (k v : String)
    (h : k ∉ m.map Prod.fst) : dictInsert m k v = m ++ [(k, v)] := by
  have hany : m.any (fun p => p.1 == k) = false := by
    rw [List.any_eq_false]
    intro p hp
    simp only [beq_iff_eq]
    intro hk
    exact h (List.mem_map.mpr ⟨p, hp, hk⟩)
  simp [dictInsert, hany]

/-- Inserting items with fresh, pairwise-distinct keys appends them in
order. -/
theorem insertItems_of_fresh :
    ∀ (items m : List (String × String)),
    (∀ k ∈ items.map Prod.fst, k ∉ m.map Prod.fst) →
    (items.map Prod.fst).Nodup →
    insertItems m items = m ++ items := by
  intro items
  induction items with
  | nil => intro m _ _; simp [insertItems]
  | cons kv tl ih =>
    intro m hfresh hnd
    obtain ⟨k, v⟩ := kv
    have hnotin : k ∉ tl.map Prod.fst := (List.nodup_cons.mp (by simpa using hnd)).1
    have hnd' : (tl.map Prod.fst).Nodup := (List.nodup_cons.mp (by simpa using hnd)).2
    have hfresh' : ∀ k' ∈ tl.map Prod.fst, k' ∉ (m ++ [(k, v)]).map Prod.fst := by
      intro k' hk' habs
      rw [List.map_append] at habs
      rcases List.mem_append.mp habs with hmem | hmem
      · exact hfresh k' (by simp [hk']) hmem
      · have hk'k : k' = k := by simpa using hmem
        exact hnotin (hk'k ▸ hk')
    have step : insertItems m ((k, v) :: tl) = insertItems (dictInsert m k v) tl := rfl
    rw [step, dictInsert_not_mem m k v (hfresh k (by simp)), ih (m ++ [(k, v)]) hfresh' hnd']
    simp

/-- The `while has_more` loop of `query_db` appends each page's pairs in
fetch order when all keys are fresh and pairwise distinct. -/
theorem dbLoop_of_fresh {α : Type} (f : α → String × String) :
    ∀ (pages : List (List α)) (m : List (String × String)),
    (∀ k ∈ ((pages.flatten).map f).map Prod.fst, k ∉ m.map Prod.fst) →
    (((pages.flatten).map f).map Prod.fst).Nodup →
    dbLoop f m pages = m ++ (pages.flatten).map f := by
  intro pages
  induction pages with
  | nil => intro m _ _; simp [dbLoop]
  | cons p rest ih =>
    intro m hfresh hnd
    have hnd' := hnd
    rw [List.flatten_cons, List.map_append, List.map_append] at hnd'
    obtain ⟨h1nd, h2nd, hdisj⟩ := List.nodup_append.mp hnd'
    have hfresh1 : ∀ k ∈ (p.map f).map Prod.fst, k ∉ m.map Prod.fst := by
      intro k hk
      apply hfresh
      rw [List.flatten_cons, List.map_append, List.map_append]
      exact List.mem_append_left _ hk
    have hfresh2 : ∀ k ∈ ((rest.flatten).map f).map Prod.fst,
        k ∉ (m ++ p.map f).map Prod.fst := by
      intro k hk habs
      rw [List.map_append] at habs
      rcases List.mem_append.mp habs with hmem | hmem
      · refine hfresh k ?_ hmem
        rw [List.flatten_cons, List.map_append, List.map_append]
        exact List.mem_append_right _ hk
      · exact hdisj hmem hk
    simp only [dbLoop]
    rw [insertItems_of_fresh (p.map f) m hfresh1 h1nd, ih (m ++ p.map f) hfresh2 h2nd]
    simp [List.map_append, List.append_assoc]

/-- C7: for every paged sequence presented by the remote — including zero
pages and one page — the collector's output is the concatenation of each
page's (transformed) items in fetch order: the `query_blocks` accumulator
recursion started empty, and the `query_db` dictionary loop whenever the
page identifiers are pairwise distinct. -/
theorem c7_paginated_collection :
    (∀ {α β : Type} (f : α → β) (pages : List (List α)),
      collectPages f pages [] = (pages.flatten).map f) ∧
    (∀ {α : Type} (f : α → String × String) (pages : List (List α)),
      (((pages.flatten).map f).map Prod.fst).Nodup →
      collectDbPages f pages = (pages.flatten).map f) := by
  constructor
  · intro α β f pages
    simpa using collectPages_append f pages []
  · intro α f pages hnd
    cases pages with
    | nil => simp [collectDbPages]
    | cons p rest =>
      have hnd' := hnd
      rw [List.flatten_cons, List.map_append, List.map_append] at hnd'
      obtain ⟨h1nd, h2nd, hdisj⟩ := List.nodup_append.mp hnd'
      have hfresh2 : ∀ k ∈ ((rest.flatten).map f).map Prod.fst,
          k ∉ (p.map f).map Prod.fst := by
        intro k hk habs
        exact hdisj habs hk
      simp only [collectDbPages]
      rw [insertItems_of_fresh (p.map f) [] (by simp) h1nd]
      rw [List.nil_append, dbLoop_of_fresh f rest (p.map f) hfresh2 h2nd]
      simp [List.map_append]

/-- C7 witness: three identified pages spread over two fetches are
collected in fetch order. -/
theorem c7_witness :
    collectDbPages (fun kv : String × String => kv)
      [[("p1", "f1")], [("p2", ""), ("p3", "f3")]] =
      ([[("p1", "f1")], [("p2", ""), ("p3", "f3")]].flatten).map (fun kv => kv) :=
  c7_paginated_collection.2 (fun kv => kv) [[("p1", "f1")], [("p2", ""), ("p3", "f3")]]
    (by decide)

/-- A one-block page whose heading renders without any fetch. -/
def pageHeading : BlockList := blist [textBlock "heading_1" "Hi"]

/-- A one-block page holding an image with an internally-hosted URL, whose
rendering must download the asset. -/
def pageWithImage : BlockList := blist [fileImageBlock]

/-- C8 counterexample: with a failing byte fetch, the run over pages
`[pa, pb(image), pc]` writes only `pa`'s file and propagates the
`AssetDownloadError` uncaught — `pc` produces no output file, refuting
that the failure is caught at the per-page boundary and prevents no other
page's output. -/
theorem c8_counterexample :
    runPages cfgFail
      [("pa", "", pageHeading), ("pb", "", pageWithImage), ("pc", "", pageHeading)] =
      ([("content/pa.md", "\n\n# Hi")], some "AssetDownloadError") :=
  rfl

/-- C8 (amended): a failure inside one page's pipeline occurs before that
page's output file is opened, so the page produces no output file — not a
partial one — but the failure is not caught at the per-page boundary: it
propagates out of the worker task, and the pages after it in the same
task chunk produce no output files either. -/
theorem c8_failure_not_caught : ∀ (cfg : Cfg) (pid fm : String) (blocks : BlockList)
    (e : String) (rest : List (String × String × BlockList)),
    render_page cfg blocks 0 = .error e →
    multi_thread cfg pid fm blocks = .error e ∧
    runPages cfg ((pid, fm, blocks) :: rest) = ([], some e) := by
  intro cfg pid fm blocks e rest h
  have h1 : multi_thread cfg pid fm blocks = .error e := by
    simp [multi_thread, h]
  exact ⟨h1, by simp [runPages, h1]⟩

/-- C8 witness: the image page under the failing fetch yields no file and
an uncaught error. -/
theorem c8_witness :
    multi_thread cfgFail "pb" "" pageWithImage = .error "AssetDownloadError" ∧
    runPages cfgFail [("pb", "", pageWithImage)] = ([], some "AssetDownloadError") :=
  c8_failure_not_caught cfgFail "pb" "" pageWithImage "AssetDownloadError" [] rfl

/-- A property mapping whose `Title` property is present with an empty
run list, as the remote produces for a page with an empty title. -/
def emptyTitleProps : Properties := { title := some (some []) }

/-- C9 counterexample: a property mapping whose title run list is present
but empty makes `parse_frontmatter` fail with an index error instead of
producing a record with the `"Untitled"` placeholder, refuting the claim
for every page property mapping. -/
theorem c9_counterexample : parse_frontmatter emptyTitleProps = .error "IndexError" :=
  rfl

/-- C9 (amended): for every page property mapping whose title run list —
`[{}]` by default when the `Title` property or its `title` key is absent —
is non-empty and whose date value, when its key is present, is not JSON
null, the mapper produces the record whose title is the first run's
plain text (`"Untitled"` when that run has none, in particular when the
title was absent), the ISO start string or empty, the ordered tag and
category name lists, the URL string — JSON null passed through when the
url value is null, empty when absent — and the published boolean.  A
present-but-empty title run list instead fails with an index error, and
a null date value fails with an attribute error (checked after the
title, matching Python's evaluation order); in neither failure is a
record produced. -/
theorem c9_frontmatter_record :
    (∀ (p : Properties) (r : Option String) (tl : List (Option String))
      (st : Option String),
      (p.title.getD none).getD [none] = r :: tl →
      (p.date.getD none).getD (.val none) = .val st →
      parse_frontmatter p = .ok
        { title := r.getD "Untitled"
          date := st.getD ""
          tags := p.tags.getD []
          categories := p.categories.getD []
          url := (p.url.getD none).getD (.val "")
          published := p.published.getD false }) ∧
    (∀ p : Properties,
      (p.title.getD none).getD [none] ≠ [] →
      (p.date.getD none).getD (.val none) = .null →
      parse_frontmatter p = .error "AttributeError") := by
  constructor
  · intro p r tl st hruns hdate
    simp [parse_frontmatter, hruns, hdate]
  · intro p hruns hdate
    simp only [parse_frontmatter]
    cases hr : (p.title.getD none).getD [none] with
    | nil => exact absurd hr hruns
    | cons r tl => simp [hdate]

/-- A fully-populated property mapping. -/
def sampleProps : Properties :=
  { title := some (some [some "My Post", none])
    date := some (some (.val (some "2024-01-02")))
    tags := some ["t1", "t2"]
    categories := some ["c1"]
    url := some (some (.val "https://ex/p"))
    published := some true }

/-- A property mapping with a non-empty title whose `Date` property is
present with `"date": null`, the remote's representation of an unset
date. -/
def nullDateProps : Properties :=
  { title := some (some [some "T"]), date := some (some .null) }

/-- C9 witness: the sample mapping produces the expected record, and the
null-date mapping fails with the attribute error. -/
theorem c9_witness :
    (parse_frontmatter sampleProps = .ok
      { title := "My Post", date := "2024-01-02", tags := ["t1", "t2"],
        categories := ["c1"], url := .val "https://ex/p", published := true }) ∧
    parse_frontmatter nullDateProps = .error "AttributeError" :=
  ⟨c9_frontmatter_record.1 sampleProps (some "My Post") [none] (some "2024-01-02") rfl rfl,
   c9_frontmatter_record.2 nullDateProps (by decide) rfl⟩

end NotionMd
